import Mathlib

/-!
Verification development for the license-plate-recognition pipeline in
`main.py` (class `RobustLicensePlateRecognizer` and the session loop of
the main program).

The OpenCV and pytesseract calls are external capabilities; they are
modelled as fields of an environment `CvEnv`, abstract over the image
type.  The OCR call may fail (the Python binding raises on engine
failure), so it returns `Except String String`; since `process_image`
wraps the call in no exception handler, the error propagates through
`process_image_loop` and `process_image`, mirroring Python exception
propagation.  Machine real arithmetic (contour areas, aspect ratios)
is modelled over `ℚ`.  Everything written from the source; line
numbers in doc comments refer to `main.py`.
-/

namespace LPR

/-- A contour: an ordered sequence of 2D integer points, as produced by
`cv2.findContours`. -/
structure Contour where
  pts : List (Int × Int)
deriving DecidableEq

/-- An axis-aligned bounding box `(x, y, w, h)` as returned by
`cv2.boundingRect`. -/
structure Rect where
  x : Nat
  y : Nat
  w : Nat
  h : Nat
deriving DecidableEq

/-- CLAHE configuration: the arguments of `cv2.createCLAHE` (main.py line 33). -/
structure ClaheConfig where
  clipLimit : ℚ
  tileGridSize : Nat × Nat
deriving DecidableEq

/-- The external image-processing and OCR capabilities used by the pipeline
(cv2 and pytesseract), abstract over the image representation `Img`.
Each field models one library call of `main.py` with its non-constant
arguments; OCR may fail, which in Python raises an exception, hence
`Except`. -/
structure CvEnv (Img : Type) where
  cvtColor_BGR2GRAY : Img → Img
  clahe_apply : ClaheConfig → Img → Img
  bilateralFilter : Img → Nat → Nat → Nat → Img
  adaptiveThreshold_gaussian_binary : Img → Nat → Nat → Nat → Img
  canny : Img → Nat → Nat → Img
  bitwise_or : Img → Img → Img
  findContours_tree_simple : Img → List Contour
  contourArea : Contour → ℚ
  arcLength_closed : Contour → ℚ
  approxPolyDP_closed : Contour → ℚ → List (Int × Int)
  boundingRect : Contour → Rect
  crop : Img → Rect → Img
  size : Img → Nat
  resize_cubic : Img → Nat → Nat → Img
  threshold_binary_otsu : Img → Img
  image_to_string : Img → String → Except String String

/-- The recognizer object: its constructor state (main.py lines 17-33) is the
fixed OCR configuration string and the fixed CLAHE configuration; nothing
else is stored on `self`. -/
structure RobustLicensePlateRecognizer where
  custom_config : String
  clahe : ClaheConfig
deriving DecidableEq

/-- The recognizer as built by `__init__` (main.py lines 27-33). -/
def mkRecognizer : RobustLicensePlateRecognizer :=
  { custom_config :=
      "--oem 3 --psm 7 -c tessedit_char_whitelist=ABCDEFGHIJKLMNOPQRSTUVWXYZ0123456789"
  , clahe := { clipLimit := 3, tileGridSize := (8, 8) } }

/-- A detection: bounding box plus recognized text (main.py lines 131-134). -/
structure Detection where
  bbox : Rect
  text : String
deriving DecidableEq

/-- Embedding of `get_contours` (main.py lines 36-71): preprocess the image and return the
30 largest contours, sorted by descending `contourArea` (the stable sort of
Python's `sorted(..., reverse=True)`), together with the CLAHE-enhanced
grayscale image. -/
def get_contours {Img : Type} (env : CvEnv Img)
    (self : RobustLicensePlateRecognizer) (img : Img) : List Contour × Img :=
  let gray := env.cvtColor_BGR2GRAY img
  let gray := env.clahe_apply self.clahe gray
  let blur := env.bilateralFilter gray 11 17 17
  let thresh := env.adaptiveThreshold_gaussian_binary blur 255 11 2
  let edged := env.canny blur 30 200
  let combined := env.bitwise_or thresh edged
  let cnts := env.findContours_tree_simple combined
  ((cnts.mergeSort (fun a b => decide (env.contourArea b ≤ env.contourArea a))).take 30,
    gray)

/-- The character class kept by the cleaning regex `[^A-Z0-9]` with
substitution by the empty string (main.py lines 124-127): a character
survives exactly when it is in `A`-`Z` or `0`-`9`. -/
def isPlateChar (c : Char) : Bool :=
  (decide ('A' ≤ c) && decide (c ≤ 'Z')) || (decide ('0' ≤ c) && decide (c ≤ '9'))

/-- Python's `str.strip()` (main.py line 121): remove leading and trailing
whitespace. -/
def py_strip (s : String) : String :=
  ⟨((s.toList.dropWhile Char.isWhitespace).reverse.dropWhile Char.isWhitespace).reverse⟩

/-- Embedding of `clean_text` (main.py lines 124-127): uppercase the raw string
(Python's `str.upper()`), then strip every character outside `[A-Z0-9]`. -/
def clean_text (s : String) : String :=
  ⟨(s.toList.map Char.toUpper).filter isPlateChar⟩

/-- The area test of main.py line 84: a contour is kept when NOT `area < 300`. -/
def area_ok (area : ℚ) : Bool :=
  ! decide (area < 300)

/-- The corner-count test of main.py line 92: `4 <= len(approx) <= 8`. -/
def corners_ok (n : Nat) : Bool :=
  decide (4 ≤ n) && decide (n ≤ 8)

/-- The aspect-ratio test of main.py line 97: `1.5 <= aspect_ratio <= 8.0`. -/
def aspect_ok (r : ℚ) : Bool :=
  decide ((3 : ℚ) / 2 ≤ r) && decide (r ≤ 8)

/-- The per-contour loop of `process_image` (main.py lines 81-134): filter by
area, polygon corner count and aspect ratio; skip empty crops; upscale,
binarize and OCR the surviving regions; keep a detection when the cleaned
text has length at least 4.  A failing OCR call (main.py lines 118-121 carry
no exception handler) aborts the loop and propagates the error. -/
def process_image_loop {Img : Type} (env : CvEnv Img) (custom_config : String)
    (gray : Img) : List Contour → Except String (List Detection)
  | [] => .ok []
  | c :: cs =>
    if area_ok (env.contourArea c) then
      let peri := env.arcLength_closed c
      let approx := env.approxPolyDP_closed c (2 / 100 * peri)
      if corners_ok approx.length then
        let r := env.boundingRect c
        let aspect_ratio : ℚ := (r.w : ℚ) / (r.h : ℚ)
        if aspect_ok aspect_ratio then
          let roi := env.crop gray r
          if env.size roi = 0 then
            process_image_loop env custom_config gray cs
          else
            let roi2 := env.resize_cubic roi 3 3
            let roi_thresh := env.threshold_binary_otsu roi2
            match env.image_to_string roi_thresh custom_config with
            | .error e => .error e
            | .ok raw =>
              let text := py_strip raw
              let clean := clean_text text
              match process_image_loop env custom_config gray cs with
              | .error e => .error e
              | .ok rest =>
                .ok (if 4 ≤ clean.length then
                  { bbox := r, text := clean } :: rest
                 else rest)
        else process_image_loop env custom_config gray cs
      else process_image_loop env custom_config gray cs
    else process_image_loop env custom_config gray cs

/-- The dedupe loop of `process_image` (main.py lines 137-142), with the
`seen` set made explicit: keep a detection exactly when its text has not
been seen yet. -/
def dedupe_loop : List Detection → List String → List Detection
  | [], _ => []
  | r :: rs, seen =>
    if r.text ∈ seen then dedupe_loop rs seen
    else r :: dedupe_loop rs (r.text :: seen)

/-- Duplicate removal of `process_image` (main.py lines 136-142): starts with
an empty `seen` set. -/
def dedupe (results : List Detection) : List Detection :=
  dedupe_loop results []

/-- Embedding of `process_image` (main.py lines 74-144): extract contours, run the
per-contour loop, dedupe the results.  The method reads but never writes
`self`, so the state it returns is the state it was given. -/
def process_image {Img : Type} (env : CvEnv Img)
    (self : RobustLicensePlateRecognizer) (img : Img) :
    Except String (List Detection) × RobustLicensePlateRecognizer :=
  let cg := get_contours env self img
  let contours := cg.1
  let gray := cg.2
  (match process_image_loop env self.custom_config gray contours with
   | .error e => .error e
   | .ok results => .ok (dedupe results),
   self)

/-- The session state of the main program (main.py lines 216-217):
`detected_plates` (a dictionary from plate text to cumulative count,
modelled as an association list) and `last_detected_plate`
(`None` initially, hence `Option`). -/
structure SessionState where
  detected_plates : List (String × Nat)
  last_detected_plate : Option String
deriving DecidableEq

/-- Python `dict.get(k, 0)` on the association list. -/
def dict_get (m : List (String × Nat)) (k : String) : Nat :=
  match m.find? (fun p => p.1 == k) with
  | some p => p.2
  | none => 0

/-- Python `dict[k] = v` on the association list. -/
def dict_set : List (String × Nat) → String → Nat → List (String × Nat)
  | [], k, v => [(k, v)]
  | p :: ps, k, v => if p.1 == k then (k, v) :: ps else p :: dict_set ps k v

/-- One plate report of the session loop (main.py lines 243-245): if the
text differs from the most recently reported plate, increment its
cumulative count and make it the most recently reported plate; otherwise
leave the session state unchanged. -/
def session_step (st : SessionState) (plate_text : String) : SessionState :=
  if some plate_text ≠ st.last_detected_plate then
    { detected_plates :=
        dict_set st.detected_plates plate_text
          (dict_get st.detected_plates plate_text + 1)
    , last_detected_plate := some plate_text }
  else st

/-! Concrete instantiation of the capability environment, used to evaluate
the pipeline on closed inputs: images are coded as natural numbers and the
library calls are fixed tables.  Three contours are reported: `cA` and `cB`
pass every geometric test and OCR to the same raw string, `cC` passes the
geometric tests but has a zero-size crop. -/

/-- First concrete contour (largest area). -/
def cA : Contour := ⟨[(0, 0)]⟩

/-- Second concrete contour. -/
def cB : Contour := ⟨[(1, 0)]⟩

/-- Third concrete contour (zero-size crop downstream). -/
def cC : Contour := ⟨[(2, 0)]⟩

/-- Fourth concrete contour (fails the area test). -/
def cD : Contour := ⟨[(3, 0)]⟩

/-- Bounding box of `cA`. -/
def rectA : Rect := ⟨0, 0, 30, 10⟩

/-- Bounding box of `cB`. -/
def rectB : Rect := ⟨5, 5, 30, 10⟩

/-- Bounding box of `cC`. -/
def rectC : Rect := ⟨9, 9, 20, 10⟩

/-- A concrete environment over `Img := Nat`, parametric in the outcome of
the OCR capability. -/
def exEnv (ocr : Except String String) : CvEnv Nat :=
  { cvtColor_BGR2GRAY := fun i => i
  , clahe_apply := fun _ i => i
  , bilateralFilter := fun i _ _ _ => i
  , adaptiveThreshold_gaussian_binary := fun i _ _ _ => i
  , canny := fun i _ _ => i
  , bitwise_or := fun i _ => i
  , findContours_tree_simple := fun i => if i = 0 then [cA, cB, cC] else [cD]
  , contourArea := fun c => if c = cA then 5000 else if c = cB then 400 else if c = cC then 350 else 100
  , arcLength_closed := fun _ => 100
  , approxPolyDP_closed := fun _ _ => [(0, 0), (0, 1), (1, 1), (1, 0)]
  , boundingRect := fun c => if c = cA then rectA else if c = cB then rectB else rectC
  , crop := fun i r => if r = rectC then 999 else i
  , size := fun i => if i = 999 then 0 else 1
  , resize_cubic := fun i _ _ => i
  , threshold_binary_otsu := fun i => i
  , image_to_string := fun _ _ => ocr }

/-- Concrete environment whose OCR succeeds with the raw string `"ab12 "`. -/
def exEnvOk : CvEnv Nat := exEnv (.ok "ab12 ")

/-- Concrete environment whose OCR capability fails. -/
def exEnvFail : CvEnv Nat := exEnv (.error "TesseractNotFoundError")

/-! Helper lemmas: evaluation of the concrete environment. -/

/-- The three contours reported by `exEnv` for image `0` are already in
descending area order. -/
theorem ex_pairwise : List.Pairwise
    (fun a b : Contour =>
      decide
          ((if b = cA then (5000 : ℚ) else if b = cB then 400 else if b = cC then 350 else 100) ≤
            if a = cA then 5000 else if a = cB then 400 else if a = cC then 350 else 100) =
        true)
    [cA, cB, cC] := by decide

/-- Sorting the concrete contour list by descending area leaves it unchanged. -/
theorem ex_sort : List.mergeSort [cA, cB, cC]
    (fun a b : Contour =>
      decide
          ((if b = cA then (5000 : ℚ) else if b = cB then 400 else if b = cC then 350 else 100) ≤
            if a = cA then 5000 else if a = cB then 400 else if a = cC then 350 else 100)) =
    [cA, cB, cC] :=
  List.mergeSort_of_sorted ex_pairwise

/-- Evaluation of `get_contours` on the concrete environment and image `0`. -/
theorem ex_get_contours (o : Except String String) :
    get_contours (exEnv o) mkRecognizer 0 = ([cA, cB, cC], 0) := by
  simp only [get_contours, exEnv, if_true]
  rw [ex_sort]
  decide

/-- Evaluation of `get_contours` on the concrete environment and image `1`: a single
contour that fails the area test. -/
theorem ex_get_contours_one (o : Except String String) :
    get_contours (exEnv o) mkRecognizer 1 = ([cD], 1) := by
  simp only [get_contours, exEnv, if_neg (by decide : ¬ (1 : Nat) = 0), List.mergeSort_singleton]
  decide

/-- Evaluation of `get_contours` on the succeeding concrete environment, image `0`. -/
theorem ex_get_contours_ok : get_contours exEnvOk mkRecognizer 0 = ([cA, cB, cC], 0) := by
  simp only [exEnvOk]
  exact ex_get_contours _

/-- Evaluation of `get_contours` on the failing concrete environment, image `0`. -/
theorem ex_get_contours_fail : get_contours exEnvFail mkRecognizer 0 = ([cA, cB, cC], 0) := by
  simp only [exEnvFail]
  exact ex_get_contours _

/-- The area test passes at `5000`. -/
theorem area_ok_5000 : area_ok 5000 = true := by decide

/-- The area test passes at `400`. -/
theorem area_ok_400 : area_ok 400 = true := by decide

/-- The area test passes at `350`. -/
theorem area_ok_350 : area_ok 350 = true := by decide

/-- The area test fails at `100`. -/
theorem area_ok_100 : area_ok 100 = false := by decide

/-- The corner test passes at `4`. -/
theorem corners_ok_4 : corners_ok 4 = true := by decide

/-- The aspect test passes at `30 / 10`. -/
theorem aspect_ok_30_10 : aspect_ok ((30 : ℚ) / (10 : ℚ)) = true := by
  norm_num [aspect_ok]

/-- The aspect test passes at `20 / 10`. -/
theorem aspect_ok_20_10 : aspect_ok ((20 : ℚ) / (10 : ℚ)) = true := by
  norm_num [aspect_ok]

/-- Cleaning the concrete raw OCR output. -/
theorem ex_clean : clean_text (py_strip "ab12 ") = "AB12" := by decide

/-- Length of the cleaned concrete text. -/
theorem ex_clean_length : "AB12".length = 4 := by decide

/-- The per-contour loop on the concrete environment with succeeding OCR:
both plate-shaped contours yield the same text, the zero-size crop is
skipped. -/
theorem ex_loop_ok : process_image_loop exEnvOk mkRecognizer.custom_config 0 [cA, cB, cC] =
    .ok [{ bbox := rectA, text := "AB12" }, { bbox := rectB, text := "AB12" }] := by
  simp only [process_image_loop, exEnvOk, exEnv, cA, cB, cC, rectA, rectB, rectC,
    area_ok_5000, area_ok_400, area_ok_350, corners_ok_4, ex_clean]
  norm_num [aspect_ok_30_10, aspect_ok_20_10, aspect_ok, area_ok, corners_ok, ex_clean,
    ex_clean_length]

/-- The per-contour loop on the concrete environment with failing OCR:
the error of the first OCR call propagates. -/
theorem ex_loop_fail : process_image_loop exEnvFail mkRecognizer.custom_config 0 [cA, cB, cC] =
    .error "TesseractNotFoundError" := by
  simp only [process_image_loop, exEnvFail, exEnv, cA, cB, cC, rectA, rectB, rectC,
    area_ok_5000, area_ok_400, area_ok_350, corners_ok_4]
  norm_num [aspect_ok_30_10, aspect_ok_20_10, aspect_ok, area_ok, corners_ok]

/-- Deduplication of the two equal-text concrete detections. -/
theorem ex_dedupe : dedupe [{ bbox := rectA, text := "AB12" }, { bbox := rectB, text := "AB12" }] =
    [{ bbox := rectA, text := "AB12" }] := by decide

/-- Evaluation of `process_image` on the concrete environment with succeeding OCR. -/
theorem ex_process_ok : (process_image exEnvOk mkRecognizer 0).1 =
    .ok [{ bbox := rectA, text := "AB12" }] := by
  simp only [process_image, ex_get_contours_ok, ex_loop_ok, ex_dedupe]

/-! Helper lemmas: the dedupe pass. -/

/-- The dedupe loop returns a sublist of its input: it only removes
detections and preserves their relative order. -/
theorem dedupe_loop_sublist (rs : List Detection) (seen : List String) :
    List.Sublist (dedupe_loop rs seen) rs := by
  induction rs generalizing seen with
  | nil => simp [dedupe_loop]
  | cons r rs ih =>
    simp only [dedupe_loop]
    split
    · exact (ih seen).trans (List.sublist_cons_self r rs)
    · exact (ih (r.text :: seen)).cons₂ r

/-- No detection kept by the dedupe loop has a text from the seen set. -/
theorem dedupe_loop_not_seen (rs : List Detection) (seen : List String) :
    ∀ d ∈ dedupe_loop rs seen, d.text ∉ seen := by
  induction rs generalizing seen with
  | nil => simp [dedupe_loop]
  | cons r rs ih =>
    simp only [dedupe_loop]
    split
    · exact ih seen
    · intro d hd
      rcases List.mem_cons.mp hd with h | h
      · subst h
        assumption
      · have := ih (r.text :: seen) d h
        intro hmem
        exact this (List.mem_cons_of_mem _ hmem)

/-- No two detections kept by the dedupe loop share a text. -/
theorem dedupe_loop_pairwise (rs : List Detection) (seen : List String) :
    List.Pairwise (fun a b => a.text ≠ b.text) (dedupe_loop rs seen) := by
  induction rs generalizing seen with
  | nil => simp [dedupe_loop]
  | cons r rs ih =>
    simp only [dedupe_loop]
    split
    · exact ih seen
    · refine List.Pairwise.cons ?_ (ih (r.text :: seen))
      intro b hb heq
      exact dedupe_loop_not_seen rs (r.text :: seen) b hb (heq ▸ List.mem_cons_self _ _)

/-- Every detection kept by the dedupe loop is the first detection of the
input with its text. -/
theorem dedupe_loop_find (rs : List Detection) (seen : List String) :
    ∀ d ∈ dedupe_loop rs seen, rs.find? (fun x => x.text == d.text) = some d := by
  induction rs generalizing seen with
  | nil => simp [dedupe_loop]
  | cons r rs ih =>
    simp only [dedupe_loop]
    split
    · intro d hd
      have hne : ¬ r.text = d.text := by
        intro heq
        exact dedupe_loop_not_seen rs seen d hd (heq ▸ (by assumption))
      rw [List.find?_cons_of_neg _ (by simpa using hne)]
      exact ih seen d hd
    · intro d hd
      rcases List.mem_cons.mp hd with h | h
      · subst h
        exact List.find?_cons_of_pos _ (by simp)
      · have hnotin := dedupe_loop_not_seen rs (r.text :: seen) d h
        have hne : ¬ r.text = d.text := by
          intro heq
          exact hnotin (heq ▸ List.mem_cons_self _ _)
        rw [List.find?_cons_of_neg _ (by simpa using hne)]
        exact ih (r.text :: seen) d h

/-- Every input detection whose text is not in the seen set has its text
represented in the output of the dedupe loop. -/
theorem dedupe_loop_covers (rs : List Detection) (seen : List String) :
    ∀ x ∈ rs, x.text ∉ seen → ∃ d ∈ dedupe_loop rs seen, d.text = x.text := by
  induction rs generalizing seen with
  | nil => simp
  | cons r rs ih =>
    intro x hx hnot
    simp only [dedupe_loop]
    split
    · rcases List.mem_cons.mp hx with h | h
      · subst h
        exact absurd (by assumption) hnot
      · exact ih seen x h hnot
    · rcases List.mem_cons.mp hx with h | h
      · subst h
        exact ⟨x, List.mem_cons_self _ _, rfl⟩
      · by_cases heq : x.text = r.text
        · exact ⟨r, List.mem_cons_self _ _, heq.symm⟩
        · have : x.text ∉ r.text :: seen := by
            intro hmem
            rcases List.mem_cons.mp hmem with h2 | h2
            · exact heq h2
            · exact hnot h2
          obtain ⟨d, hd, hdt⟩ := ih (r.text :: seen) x h this
          exact ⟨d, List.mem_cons_of_mem _ hd, hdt⟩

/-! Helper lemmas: the per-contour loop. -/

/-- A contour failing the area, corner or aspect test, or yielding a
zero-size crop, contributes nothing: the loop continues with the remaining
contours. -/
theorem process_image_loop_skip {Img : Type} (env : CvEnv Img) (cfg : String)
    (gray : Img) (c : Contour) (cs : List Contour)
    (hc : area_ok (env.contourArea c) = false ∨
      corners_ok (env.approxPolyDP_closed c (2 / 100 * env.arcLength_closed c)).length = false ∨
      aspect_ok (((env.boundingRect c).w : ℚ) / ((env.boundingRect c).h : ℚ)) = false ∨
      env.size (env.crop gray (env.boundingRect c)) = 0) :
    process_image_loop env cfg gray (c :: cs) = process_image_loop env cfg gray cs := by
  simp only [process_image_loop]
  rcases hc with hx | hx | hx | hx <;> simp [hx]

/-- If every contour fails one of the area, corner and aspect tests, the
loop returns the empty detection list. -/
theorem process_image_loop_all_fail {Img : Type} (env : CvEnv Img) (cfg : String)
    (gray : Img) : ∀ cs : List Contour,
    (∀ c ∈ cs, area_ok (env.contourArea c) = false ∨
      corners_ok (env.approxPolyDP_closed c (2 / 100 * env.arcLength_closed c)).length = false ∨
      aspect_ok (((env.boundingRect c).w : ℚ) / ((env.boundingRect c).h : ℚ)) = false) →
    process_image_loop env cfg gray cs = .ok [] := by
  intro cs
  induction cs with
  | nil => intro _; simp [process_image_loop]
  | cons c cs ih =>
    intro h
    rw [process_image_loop_skip env cfg gray c cs
      ((h c (List.mem_cons_self c cs)).imp id (Or.imp id Or.inl))]
    exact ih (fun x hx => h x (List.mem_cons_of_mem _ hx))

/-- If the OCR capability always fails with error `e` and some contour of the
list passes all geometric tests with a non-empty crop, the loop propagates
`.error e`. -/
theorem process_image_loop_ocr_fail {Img : Type} (env : CvEnv Img) (cfg : String)
    (gray : Img) (e : String)
    (hocr : ∀ i s, env.image_to_string i s = .error e) :
    ∀ cs : List Contour,
    (∃ c ∈ cs, area_ok (env.contourArea c) = true ∧
      corners_ok (env.approxPolyDP_closed c (2 / 100 * env.arcLength_closed c)).length = true ∧
      aspect_ok (((env.boundingRect c).w : ℚ) / ((env.boundingRect c).h : ℚ)) = true ∧
      ¬ env.size (env.crop gray (env.boundingRect c)) = 0) →
    process_image_loop env cfg gray cs = .error e := by
  intro cs
  induction cs with
  | nil => rintro ⟨c, hc, -⟩; exact absurd hc (List.not_mem_nil c)
  | cons c cs ih =>
    rintro ⟨c0, hc0, hpass⟩
    by_cases h1 : area_ok (env.contourArea c) = true
    · by_cases h2 : corners_ok
          (env.approxPolyDP_closed c (2 / 100 * env.arcLength_closed c)).length = true
      · by_cases h3 : aspect_ok
            (((env.boundingRect c).w : ℚ) / ((env.boundingRect c).h : ℚ)) = true
        · by_cases h4 : env.size (env.crop gray (env.boundingRect c)) = 0
          · rw [process_image_loop_skip env cfg gray c cs (Or.inr (Or.inr (Or.inr h4)))]
            rcases List.mem_cons.mp hc0 with h | h
            · subst h
              exact absurd h4 hpass.2.2.2
            · exact ih ⟨c0, h, hpass⟩
          · simp only [process_image_loop, h1, h2, h3]
            simp [h4, hocr]
        · rw [process_image_loop_skip env cfg gray c cs
            (Or.inr (Or.inr (Or.inl (Bool.eq_false_iff.mpr h3))))]
          rcases List.mem_cons.mp hc0 with h | h
          · subst h
            exact absurd hpass.2.2.1 h3
          · exact ih ⟨c0, h, hpass⟩
      · rw [process_image_loop_skip env cfg gray c cs
          (Or.inr (Or.inl (Bool.eq_false_iff.mpr h2)))]
        rcases List.mem_cons.mp hc0 with h | h
        · subst h
          exact absurd hpass.2.1 h2
        · exact ih ⟨c0, h, hpass⟩
    · rw [process_image_loop_skip env cfg gray c cs (Or.inl (Bool.eq_false_iff.mpr h1))]
      rcases List.mem_cons.mp hc0 with h | h
      · subst h
        exact absurd hpass.1 h1
      · exact ih ⟨c0, h, hpass⟩

/-- Every character surviving `clean_text` is in `[A-Z0-9]`. -/
theorem clean_text_chars (s : String) :
    ∀ ch ∈ (clean_text s).toList, isPlateChar ch = true := by
  intro ch hch
  have h2 : ch ∈ (s.toList.map Char.toUpper).filter isPlateChar := hch
  exact List.of_mem_filter h2

/-- Every detection produced by the loop carries text that was produced by
`clean_text` from some string and has length at least 4. -/
theorem process_image_loop_text {Img : Type} (env : CvEnv Img) (cfg : String)
    (gray : Img) : ∀ (cs : List Contour) (raw : List Detection),
    process_image_loop env cfg gray cs = .ok raw →
    ∀ d ∈ raw, 4 ≤ d.text.length ∧ (∀ ch ∈ d.text.toList, isPlateChar ch = true) ∧
      ∃ s, d.text = clean_text s := by
  intro cs
  induction cs with
  | nil =>
    intro raw h
    simp only [process_image_loop, Except.ok.injEq] at h
    subst h
    simp
  | cons c cs ih =>
    intro raw h
    simp only [process_image_loop] at h
    split at h
    · split at h
      · split at h
        · split at h
          · exact ih raw h
          · split at h
            · exact absurd h (by simp)
            · split at h
              · exact absurd h (by simp)
              · rename_i s rest hrest
                simp only [Except.ok.injEq] at h
                subst h
                split
                · rename_i hlen
                  intro d hd
                  rcases List.mem_cons.mp hd with hh | hh
                  · subst hh
                    exact ⟨hlen, clean_text_chars _, _, rfl⟩
                  · exact ih rest hrest d hh
                · exact ih rest hrest
        · exact ih raw h
      · exact ih raw h
    · exact ih raw h

/-- The loop emits at most one detection per contour. -/
theorem process_image_loop_length {Img : Type} (env : CvEnv Img) (cfg : String)
    (gray : Img) : ∀ (cs : List Contour) (raw : List Detection),
    process_image_loop env cfg gray cs = .ok raw → raw.length ≤ cs.length := by
  intro cs
  induction cs with
  | nil =>
    intro raw h
    simp only [process_image_loop, Except.ok.injEq] at h
    subst h
    simp
  | cons c cs ih =>
    intro raw h
    simp only [process_image_loop] at h
    split at h
    · split at h
      · split at h
        · split at h
          · exact (ih raw h).trans (Nat.le_succ _)
          · split at h
            · exact absurd h (by simp)
            · split at h
              · exact absurd h (by simp)
              · rename_i s rest hrest
                simp only [Except.ok.injEq] at h
                subst h
                split
                · simpa using ih rest hrest
                · exact (ih rest hrest).trans (Nat.le_succ _)
        · exact (ih raw h).trans (Nat.le_succ _)
      · exact (ih raw h).trans (Nat.le_succ _)
    · exact (ih raw h).trans (Nat.le_succ _)

/-! Helper lemmas: unpacking `process_image`. -/

/-- The recognizer state returned by `process_image` is the state passed in. -/
theorem process_image_state {Img : Type} (env : CvEnv Img)
    (self : RobustLicensePlateRecognizer) (img : Img) :
    (process_image env self img).2 = self := rfl

/-- Lemma: `process_image` succeeds with `rs` exactly when the per-contour loop
succeeds with some raw list whose dedupe is `rs`. -/
theorem process_image_ok_iff {Img : Type} (env : CvEnv Img)
    (self : RobustLicensePlateRecognizer) (img : Img) (rs : List Detection) :
    (process_image env self img).1 = .ok rs ↔
      ∃ raw, process_image_loop env self.custom_config (get_contours env self img).2
          (get_contours env self img).1 = .ok raw ∧ rs = dedupe raw := by
  simp only [process_image]
  cases h : process_image_loop env self.custom_config (get_contours env self img).2
      (get_contours env self img).1 with
  | error e => simp
  | ok raw =>
    simp only [Except.ok.injEq]
    constructor
    · intro he
      exact ⟨raw, rfl, he.symm⟩
    · rintro ⟨raw2, h2, h3⟩
      cases h2
      exact h3.symm

/-- Sorting any contour list by descending area and keeping the first 30:
the kept prefix is sorted descending, and together with the dropped suffix
it is a permutation of the input, every dropped contour having area at most
that of every kept contour. -/
theorem mergeSort_take30 {Img : Type} (env : CvEnv Img) (l : List Contour) :
    List.Pairwise (fun a b => env.contourArea b ≤ env.contourArea a)
      (List.take 30 (l.mergeSort (fun a b => decide (env.contourArea b ≤ env.contourArea a)))) ∧
    List.Perm
      (List.take 30 (l.mergeSort (fun a b => decide (env.contourArea b ≤ env.contourArea a))) ++
        List.drop 30 (l.mergeSort (fun a b => decide (env.contourArea b ≤ env.contourArea a)))) l ∧
    ∀ c ∈ List.drop 30 (l.mergeSort (fun a b => decide (env.contourArea b ≤ env.contourArea a))),
      ∀ c2 ∈ List.take 30 (l.mergeSort (fun a b => decide (env.contourArea b ≤ env.contourArea a))),
        env.contourArea c ≤ env.contourArea c2 := by
  have htrans : ∀ a b c : Contour,
      decide (env.contourArea b ≤ env.contourArea a) = true →
      decide (env.contourArea c ≤ env.contourArea b) = true →
      decide (env.contourArea c ≤ env.contourArea a) = true := by
    intro a b c h1 h2
    rw [decide_eq_true_eq] at h1 h2 ⊢
    exact h2.trans h1
  have htotal : ∀ a b : Contour,
      (decide (env.contourArea b ≤ env.contourArea a) ||
        decide (env.contourArea a ≤ env.contourArea b)) = true := by
    intro a b
    rcases le_total (env.contourArea b) (env.contourArea a) with h | h <;> simp [h]
  have hsorted := @List.sorted_mergeSort Contour
    (fun a b => decide (env.contourArea b ≤ env.contourArea a)) htrans htotal l
  refine ⟨?_, ?_, ?_⟩
  · exact (List.Pairwise.sublist (List.take_sublist 30 _) hsorted).imp
      (fun h => of_decide_eq_true h)
  · rw [List.take_append_drop]
    exact List.mergeSort_perm l _
  · intro c hc c2 hc2
    have hp := hsorted
    rw [← List.take_append_drop 30
      (l.mergeSort (fun a b => decide (env.contourArea b ≤ env.contourArea a)))] at hp
    exact of_decide_eq_true ((List.pairwise_append.mp hp).2.2 c2 hc2 c hc)

/-! Helper lemmas: the session dictionary. -/

/-- Reading back the key just written. -/
theorem dict_get_set_self (m : List (String × Nat)) (k : String) (v : Nat) :
    dict_get (dict_set m k v) k = v := by
  induction m with
  | nil => simp [dict_set, dict_get, List.find?]
  | cons p ps ih =>
    by_cases h : p.1 == k
    · simp [dict_set, h, dict_get, List.find?]
    · simp only [dict_set, h]
      simpa [dict_get, List.find?, h] using ih

/-- Writing one key leaves every other key unchanged. -/
theorem dict_get_set_ne (m : List (String × Nat)) (k k2 : String) (v : Nat)
    (hne : ¬ k2 = k) :
    dict_get (dict_set m k v) k2 = dict_get m k2 := by
  induction m with
  | nil =>
    simp only [dict_set, dict_get, List.find?]
    have : (k == k2) = false := by
      simpa using fun h => hne h.symm
    simp [this]
  | cons p ps ih =>
    by_cases h : p.1 == k
    · have hp : p.1 = k := by simpa using h
      have h1 : (k == k2) = false := by
        simpa using fun h2 => hne h2.symm
      have h2 : (p.1 == k2) = false := by
        rw [hp]
        exact h1
      simp [dict_set, h, dict_get, List.find?, h1, h2]
    · by_cases h3 : p.1 == k2
      · simp [dict_set, h, dict_get, List.find?, h3]
      · simpa [dict_set, h, dict_get, List.find?, h3] using ih

/-- One session step with a plate text differing from the most recently
reported one: increment the count, set the last reported plate. -/
theorem session_step_updates (st : SessionState) (t : String)
    (h : some t ≠ st.last_detected_plate) :
    session_step st t =
      { detected_plates := dict_set st.detected_plates t (dict_get st.detected_plates t + 1)
      , last_detected_plate := some t } := by
  simp [session_step, h]

/-! The claims. -/

/-- C1: in every ResultSet returned by `process_image` no two detections
share a text; the dedupe pass keeps, for each text value, only the first
detection in input order (the loop output order) and drops every later
detection with the same text, preserving the relative order of the kept
detections. -/
theorem process_image_dedupe_invariant {Img : Type} (env : CvEnv Img)
    (self : RobustLicensePlateRecognizer) (img : Img) (rs : List Detection)
    (h : (process_image env self img).1 = .ok rs) :
    List.Pairwise (fun a b => a.text ≠ b.text) rs ∧
    ∀ raw, process_image_loop env self.custom_config (get_contours env self img).2
        (get_contours env self img).1 = .ok raw →
      rs = dedupe raw ∧ List.Sublist rs raw ∧
      (∀ d ∈ rs, raw.find? (fun x => x.text == d.text) = some d) ∧
      (∀ x ∈ raw, ∃ d ∈ rs, d.text = x.text) := by
  obtain ⟨raw0, hloop, hrs⟩ := (process_image_ok_iff env self img rs).mp h
  subst hrs
  refine ⟨dedupe_loop_pairwise raw0 [], ?_⟩
  intro raw hraw
  rw [hloop] at hraw
  injection hraw with h2
  subst h2
  exact ⟨rfl, dedupe_loop_sublist raw0 [],
    fun d hd => dedupe_loop_find raw0 [] d hd,
    fun x hx => dedupe_loop_covers raw0 [] x hx (by simp)⟩

/-- Witness for C1 at the concrete environment: the frame yields two raw
detections with the same text and the ResultSet keeps only the first. -/
theorem process_image_dedupe_invariant_witness :
    List.Pairwise (fun a b : Detection => a.text ≠ b.text)
      [{ bbox := rectA, text := "AB12" }] ∧
    ∀ raw, process_image_loop exEnvOk mkRecognizer.custom_config
        (get_contours exEnvOk mkRecognizer 0).2 (get_contours exEnvOk mkRecognizer 0).1 =
          .ok raw →
      [{ bbox := rectA, text := "AB12" }] = dedupe raw ∧
      List.Sublist [{ bbox := rectA, text := "AB12" }] raw ∧
      (∀ d ∈ ([{ bbox := rectA, text := "AB12" }] : List Detection),
        raw.find? (fun x => x.text == d.text) = some d) ∧
      (∀ x ∈ raw, ∃ d ∈ ([{ bbox := rectA, text := "AB12" }] : List Detection),
        d.text = x.text) :=
  process_image_dedupe_invariant exEnvOk mkRecognizer 0 _ ex_process_ok

/-- C2: every detection of a ResultSet returned by `process_image` has text
of length at least 4 drawn only from `[A-Z0-9]`, produced by `clean_text`
(uppercase then strip everything outside `[A-Z0-9]`). -/
theorem process_image_text_wellformed {Img : Type} (env : CvEnv Img)
    (self : RobustLicensePlateRecognizer) (img : Img) (rs : List Detection)
    (h : (process_image env self img).1 = .ok rs) :
    ∀ d ∈ rs, 4 ≤ d.text.length ∧ (∀ ch ∈ d.text.toList, isPlateChar ch = true) ∧
      ∃ s, d.text = clean_text s := by
  obtain ⟨raw, hloop, hrs⟩ := (process_image_ok_iff env self img rs).mp h
  subst hrs
  intro d hd
  exact process_image_loop_text env self.custom_config (get_contours env self img).2
    (get_contours env self img).1 raw hloop d ((dedupe_loop_sublist raw []).subset hd)

/-- Witness for C2 at the concrete environment, instantiated at the one
detection of the concrete ResultSet. -/
theorem process_image_text_wellformed_witness :
    4 ≤ ({ bbox := rectA, text := "AB12" } : Detection).text.length ∧
    (∀ ch ∈ ({ bbox := rectA, text := "AB12" } : Detection).text.toList,
      isPlateChar ch = true) ∧
    ∃ s, ({ bbox := rectA, text := "AB12" } : Detection).text = clean_text s :=
  process_image_text_wellformed exEnvOk mkRecognizer 0 _ ex_process_ok
    { bbox := rectA, text := "AB12" } (by decide)

/-- C3: `process_image` holds no mutable state: the recognizer state it
returns is the state it was given, so a second call on the identical frame
with the state coming out of the first call returns the identical ResultSet
and state. -/
theorem process_image_idempotent {Img : Type} (env : CvEnv Img)
    (self : RobustLicensePlateRecognizer) (img : Img) :
    (process_image env (process_image env self img).2 img).1 =
      (process_image env self img).1 ∧
    (process_image env (process_image env self img).2 img).2 =
      (process_image env self img).2 :=
  ⟨rfl, rfl⟩

/-- C5: the candidate filter bounds are inclusive exactly as stated: corner
count 4 or 8 passes, aspect ratio exactly `1.5` or exactly `8.0` passes,
area exactly `300` passes; corner count 3 and aspect ratio `1.49999` are
rejected. -/
theorem candidate_filter_boundary :
    area_ok 300 = true ∧ corners_ok 4 = true ∧ corners_ok 8 = true ∧
    aspect_ok ((3 : ℚ) / 2) = true ∧ aspect_ok (8 : ℚ) = true ∧
    corners_ok 3 = false ∧ aspect_ok ((149999 : ℚ) / 100000) = false := by
  norm_num [area_ok, corners_ok, aspect_ok]

/-- C10: a ResultSet returned by `process_image` holds at most 30
detections: at most 30 contours are considered, each contributes at most
one detection, and deduplication only removes entries. -/
theorem process_image_at_most_30 {Img : Type} (env : CvEnv Img)
    (self : RobustLicensePlateRecognizer) (img : Img) (rs : List Detection)
    (h : (process_image env self img).1 = .ok rs) :
    rs.length ≤ 30 := by
  obtain ⟨raw, hloop, hrs⟩ := (process_image_ok_iff env self img rs).mp h
  subst hrs
  have h1 : (dedupe raw).length ≤ raw.length := (dedupe_loop_sublist raw []).length_le
  have h2 : raw.length ≤ (get_contours env self img).1.length :=
    process_image_loop_length env self.custom_config (get_contours env self img).2
      (get_contours env self img).1 raw hloop
  have h3 : (get_contours env self img).1.length ≤ 30 := List.length_take_le _ _
  omega

/-- Witness for C10 at the concrete environment. -/
theorem process_image_at_most_30_witness :
    (List.length [({ bbox := rectA, text := "AB12" } : Detection)]) ≤ 30 :=
  process_image_at_most_30 exEnvOk mkRecognizer 0 _ ex_process_ok

/-- C4, counterexample to the claim as stated: with an OCR capability that
fails on a frame holding plate-shaped candidates, `process_image` does not
treat the candidate as an empty OCR result and continue; the error
propagates out (the pytesseract call of main.py lines 118-121 is wrapped in
no exception handler), so the ResultSet of the claim is never produced. -/
theorem ocr_failure_counterexample :
    (process_image exEnvFail mkRecognizer 0).1 = .error "TesseractNotFoundError" ∧
    (process_image exEnvFail mkRecognizer 0).1 ≠ .ok [] := by
  have h : (process_image exEnvFail mkRecognizer 0).1 = .error "TesseractNotFoundError" := by
    simp only [process_image, ex_get_contours_fail, ex_loop_fail]
  exact ⟨h, by simp [h]⟩

/-- C4, amended: if the OCR capability fails with error `e` and some contour
of the frame passes all geometric tests with a non-empty crop, the error
propagates out of `process_image` and aborts the whole frame's candidate
list. -/
theorem ocr_failure_aborts {Img : Type} (env : CvEnv Img)
    (self : RobustLicensePlateRecognizer) (img : Img) (e : String)
    (hocr : ∀ i s, env.image_to_string i s = .error e)
    (hcand : ∃ c ∈ (get_contours env self img).1,
      area_ok (env.contourArea c) = true ∧
      corners_ok (env.approxPolyDP_closed c (2 / 100 * env.arcLength_closed c)).length = true ∧
      aspect_ok (((env.boundingRect c).w : ℚ) / ((env.boundingRect c).h : ℚ)) = true ∧
      ¬ env.size (env.crop (get_contours env self img).2 (env.boundingRect c)) = 0) :
    (process_image env self img).1 = .error e := by
  have hl := process_image_loop_ocr_fail env self.custom_config
    (get_contours env self img).2 e hocr (get_contours env self img).1 hcand
  simp only [process_image, hl]

/-- Witness for the amended C4 at the concrete failing environment. -/
theorem ocr_failure_aborts_witness :
    (∀ i s, exEnvFail.image_to_string i s = .error "TesseractNotFoundError") ∧
    (process_image exEnvFail mkRecognizer 0).1 = .error "TesseractNotFoundError" := by
  have hocr : ∀ (i : Nat) (s : String),
      exEnvFail.image_to_string i s = .error "TesseractNotFoundError" := fun i s => rfl
  have hcand : ∃ c ∈ (get_contours exEnvFail mkRecognizer 0).1,
      area_ok (exEnvFail.contourArea c) = true ∧
      corners_ok (exEnvFail.approxPolyDP_closed c
        (2 / 100 * exEnvFail.arcLength_closed c)).length = true ∧
      aspect_ok (((exEnvFail.boundingRect c).w : ℚ) /
        ((exEnvFail.boundingRect c).h : ℚ)) = true ∧
      ¬ exEnvFail.size (exEnvFail.crop (get_contours exEnvFail mkRecognizer 0).2
        (exEnvFail.boundingRect c)) = 0 := by
    refine ⟨cA, ?_, ?_, ?_, ?_, ?_⟩
    · rw [ex_get_contours_fail]
      exact List.mem_cons_self _ _
    · decide
    · decide
    · norm_num [exEnvFail, exEnv, cA, rectA, aspect_ok]
    · rw [ex_get_contours_fail]
      decide
  exact ⟨hocr, ocr_failure_aborts exEnvFail mkRecognizer 0 _ hocr hcand⟩

/-- C6: `get_contours` returns at most 30 contours, sorted in descending
order of enclosed area, which are largest-area contours among all contours
found in the combined threshold/edge image, together with the
contrast-enhanced grayscale image. -/
theorem get_contours_top30_sorted {Img : Type} (env : CvEnv Img)
    (self : RobustLicensePlateRecognizer) (img : Img) :
    (get_contours env self img).1.length ≤ 30 ∧
    List.Pairwise (fun a b => env.contourArea b ≤ env.contourArea a)
      (get_contours env self img).1 ∧
    (∃ dropped : List Contour,
      List.Perm ((get_contours env self img).1 ++ dropped)
        (env.findContours_tree_simple
          (env.bitwise_or
            (env.adaptiveThreshold_gaussian_binary
              (env.bilateralFilter (env.clahe_apply self.clahe (env.cvtColor_BGR2GRAY img))
                11 17 17) 255 11 2)
            (env.canny
              (env.bilateralFilter (env.clahe_apply self.clahe (env.cvtColor_BGR2GRAY img))
                11 17 17) 30 200))) ∧
      ∀ c ∈ dropped, ∀ c2 ∈ (get_contours env self img).1,
        env.contourArea c ≤ env.contourArea c2) ∧
    (get_contours env self img).2 =
      env.clahe_apply self.clahe (env.cvtColor_BGR2GRAY img) := by
  obtain ⟨hpw, hperm, hcross⟩ := mergeSort_take30 env
    (env.findContours_tree_simple
      (env.bitwise_or
        (env.adaptiveThreshold_gaussian_binary
          (env.bilateralFilter (env.clahe_apply self.clahe (env.cvtColor_BGR2GRAY img))
            11 17 17) 255 11 2)
        (env.canny
          (env.bilateralFilter (env.clahe_apply self.clahe (env.cvtColor_BGR2GRAY img))
            11 17 17) 30 200)))
  exact ⟨List.length_take_le _ _, hpw, ⟨_, hperm, hcross⟩, rfl⟩

/-- C7: a candidate that passes the geometric tests but whose cropped region
is empty is skipped silently: the loop's result on the remaining contours is
unchanged and no error arises. -/
theorem empty_crop_skipped {Img : Type} (env : CvEnv Img) (cfg : String)
    (gray : Img) (c : Contour) (cs : List Contour)
    (h1 : area_ok (env.contourArea c) = true)
    (h2 : corners_ok (env.approxPolyDP_closed c
      (2 / 100 * env.arcLength_closed c)).length = true)
    (h3 : aspect_ok (((env.boundingRect c).w : ℚ) / ((env.boundingRect c).h : ℚ)) = true)
    (h4 : env.size (env.crop gray (env.boundingRect c)) = 0) :
    process_image_loop env cfg gray (c :: cs) = process_image_loop env cfg gray cs :=
  process_image_loop_skip env cfg gray c cs (Or.inr (Or.inr (Or.inr h4)))

/-- Witness for C7: the concrete contour `cC` passes all geometric tests,
crops to a zero-size region, and is skipped. -/
theorem empty_crop_skipped_witness :
    area_ok (exEnvOk.contourArea cC) = true ∧
    exEnvOk.size (exEnvOk.crop 0 (exEnvOk.boundingRect cC)) = 0 ∧
    process_image_loop exEnvOk mkRecognizer.custom_config 0 [cC] =
      process_image_loop exEnvOk mkRecognizer.custom_config 0 [] := by
  refine ⟨by decide, by decide, ?_⟩
  exact empty_crop_skipped exEnvOk mkRecognizer.custom_config 0 cC []
    (by decide) (by decide)
    (by norm_num [exEnvOk, exEnv, cC, cA, cB, rectC, aspect_ok]) (by decide)

/-- C8: when no extracted contour passes the area, corner-count and
aspect-ratio tests simultaneously, `process_image` returns the empty
ResultSet. -/
theorem no_candidates_empty_result {Img : Type} (env : CvEnv Img)
    (self : RobustLicensePlateRecognizer) (img : Img)
    (h : ∀ c ∈ (get_contours env self img).1,
      area_ok (env.contourArea c) = false ∨
      corners_ok (env.approxPolyDP_closed c (2 / 100 * env.arcLength_closed c)).length = false ∨
      aspect_ok (((env.boundingRect c).w : ℚ) / ((env.boundingRect c).h : ℚ)) = false) :
    (process_image env self img).1 = .ok [] := by
  have hl := process_image_loop_all_fail env self.custom_config
    (get_contours env self img).2 (get_contours env self img).1 h
  exact (process_image_ok_iff env self img []).mpr ⟨[], hl, rfl⟩

/-- Witness for C8: image `1` of the concrete environment reports a single
contour failing the area test, and `process_image` returns the empty list. -/
theorem no_candidates_empty_result_witness :
    (∀ c ∈ (get_contours exEnvOk mkRecognizer 1).1,
      area_ok (exEnvOk.contourArea c) = false ∨
      corners_ok (exEnvOk.approxPolyDP_closed c
        (2 / 100 * exEnvOk.arcLength_closed c)).length = false ∨
      aspect_ok (((exEnvOk.boundingRect c).w : ℚ) /
        ((exEnvOk.boundingRect c).h : ℚ)) = false) ∧
    (process_image exEnvOk mkRecognizer 1).1 = .ok [] := by
  have h : ∀ c ∈ (get_contours exEnvOk mkRecognizer 1).1,
      area_ok (exEnvOk.contourArea c) = false ∨
      corners_ok (exEnvOk.approxPolyDP_closed c
        (2 / 100 * exEnvOk.arcLength_closed c)).length = false ∨
      aspect_ok (((exEnvOk.boundingRect c).w : ℚ) /
        ((exEnvOk.boundingRect c).h : ℚ)) = false := by
    have hg : (get_contours exEnvOk mkRecognizer 1).1 = [cD] := by
      simp only [exEnvOk]
      rw [ex_get_contours_one]
    rw [hg]
    intro c hc
    rw [List.mem_singleton.mp hc]
    exact Or.inl (by decide)
  exact ⟨h, no_candidates_empty_result exEnvOk mkRecognizer 1 h⟩

/-- C9: a reported detection updates the cumulative plate-count mapping
(incrementing that plate's count and making it the most recently reported
plate) exactly when its text differs from the most recently reported plate;
an equal text leaves the session state unchanged, and a plate reported
twice non-consecutively is counted twice. -/
theorem session_step_spec (st : SessionState) (t u : String)
    (hne : st.last_detected_plate ≠ some t) (hu : u ≠ t) :
    dict_get (session_step st t).detected_plates t = dict_get st.detected_plates t + 1 ∧
    (session_step st t).last_detected_plate = some t ∧
    (∀ st2 : SessionState, st2.last_detected_plate = some t → session_step st2 t = st2) ∧
    dict_get (session_step (session_step (session_step st t) u) t).detected_plates t =
      dict_get st.detected_plates t + 2 := by
  have hcond : some t ≠ st.last_detected_plate := fun h => hne h.symm
  have hsame : ∀ st2 : SessionState, st2.last_detected_plate = some t →
      session_step st2 t = st2 := by
    intro st2 h2
    simp [session_step, h2]
  refine ⟨?_, ?_, hsame, ?_⟩
  · rw [session_step_updates st t hcond]
    exact dict_get_set_self _ _ _
  · rw [session_step_updates st t hcond]
  · rw [session_step_updates st t hcond]
    rw [session_step_updates _ u (by simpa using hu)]
    simp only
    rw [session_step_updates _ t (by simpa using fun h => hu h.symm)]
    simp only
    rw [dict_get_set_self]
    rw [dict_get_set_ne _ _ _ _ (fun h => hu h.symm)]
    rw [dict_get_set_self]

/-- Witness for C9 starting from the initial session state. -/
theorem session_step_spec_witness :
    dict_get (session_step ⟨[], none⟩ "AB12").detected_plates "AB12" =
      dict_get ([] : List (String × Nat)) "AB12" + 1 ∧
    (session_step ⟨[], none⟩ "AB12").last_detected_plate = some "AB12" ∧
    (∀ st2 : SessionState, st2.last_detected_plate = some "AB12" →
      session_step st2 "AB12" = st2) ∧
    dict_get (session_step (session_step (session_step ⟨[], none⟩ "AB12") "XY99")
        "AB12").detected_plates "AB12" =
      dict_get ([] : List (String × Nat)) "AB12" + 2 :=
  session_step_spec ⟨[], none⟩ "AB12" "XY99" (by simp) (by decide)

end LPR

